import Mathlib

/-!
Shallow embedding of the vendor-spend analysis pipeline (`vendor_ai.py`).

The program is a straight-line, single-threaded pipeline: for each vendor
of an input ledger it calls an external language model and a web-search
capability through prompt templates, then persists the enriched records to
a CSV file and an opportunities text file.

Embedding choices:
* The two external capabilities (the chat model and the search wrapper) are
  modelled as oracle functions `String → Except Err String`: a filled prompt
  string in, either a text reply or a raised exception out.  All theorems
  quantify over the oracles.
* Python `float` values are modelled as exact rationals (`ℚ`); the decimal
  literal parser below models `float(...)` on plain decimal strings
  (sign, digits, decimal point, optional exponent).  Binary rounding of
  IEEE doubles is not modelled; no claim depends on it.
* File writes and per-vendor progress are recorded in an explicit event
  trace; each stage returns its `Except` result together with the events it
  performed before returning or raising.
* Reading the input CSV is modelled by handing the pipeline the parsed row
  list directly (one `InRow` per data row of the ledger file).
-/

deriving instance DecidableEq for Except

namespace VendorAI

/-- Exceptions that the Python run can raise: `ValueError` from `float(...)`
on a malformed amount, or any exception escaping an external call. -/
inductive Err where
  | parseError (input : String)
  | externalError (msg : String)
deriving DecidableEq

/-- The two external capabilities: `llm` is the chat model applied to a
filled prompt template (`prompt | llm | (lambda x: x.content)`), `search`
is `GoogleSerperAPIWrapper().run`. -/
structure Oracles where
  llm : String → Except Err String
  search : String → Except Err String

/-! ### Python string and float primitives -/

/-- The ASCII whitespace characters stripped by Python `str.strip()`. -/
def isPySpace (c : Char) : Bool :=
  c == ' ' || c == '\t' || c == '\n' || c == '\r' || c == '\x0b' || c == '\x0c'

/-- Python `str.strip()` (ASCII whitespace). -/
def pyStrip (s : String) : String :=
  String.mk ((((s.data.dropWhile isPySpace).reverse).dropWhile isPySpace).reverse)

/-- Python `str.lower()`: lowercase every character (the pipeline only
ever lowercases ASCII model output). -/
def pyLower (s : String) : String :=
  String.mk (s.data.map Char.toLower)

/-- Python `str.replace(c, "")` for a one-character pattern deletes every
occurrence of that character. -/
def pyReplaceChar (c : Char) (s : String) : String :=
  String.mk (s.data.filter (fun a => a != c))

/-- Numeric value of a digit string (most significant first). -/
def digitsVal (cs : List Char) : Nat :=
  cs.foldl (fun a c => 10 * a + (c.toNat - '0'.toNat)) 0

/-- All characters are decimal digits. -/
def allDigits (cs : List Char) : Bool :=
  cs.all Char.isDigit

/-- Mantissa of a Python float literal: digits with at most one decimal
point and at least one digit (`"1250.00"`, `"1."`, `".5"`); the value is
returned as the digit string read as an integer together with the number
of fraction digits. -/
def parseMantissa (cs : List Char) : Option (ℤ × ℕ) :=
  let ip := cs.takeWhile (fun c => c != '.')
  let rest := cs.dropWhile (fun c => c != '.')
  match rest with
  | [] => if ip ≠ [] && allDigits ip then some ((digitsVal ip : ℤ), 0) else none
  | _ :: frac =>
    if (ip ≠ [] || frac ≠ []) && allDigits ip && allDigits frac then
      some ((digitsVal (ip ++ frac) : ℤ), frac.length)
    else none

/-- Signed integer exponent of a float literal. -/
def parseExp (cs : List Char) : Option ℤ :=
  match cs with
  | '-' :: ds => if ds ≠ [] && allDigits ds then some (-(digitsVal ds : ℤ)) else none
  | '+' :: ds => if ds ≠ [] && allDigits ds then some ((digitsVal ds : ℤ)) else none
  | ds => if ds ≠ [] && allDigits ds then some ((digitsVal ds : ℤ)) else none

/-- Unsigned float literal, mantissa with optional `e`/`E` exponent; the
exact decimal value as a rational. -/
def pyFloatCore (cs : List Char) : Option ℚ :=
  let mant := cs.takeWhile (fun c => c != 'e' && c != 'E')
  let rest := cs.dropWhile (fun c => c != 'e' && c != 'E')
  match rest with
  | [] =>
    match parseMantissa mant with
    | some (n, s) => some (mkRat n (10 ^ s))
    | none => none
  | _ :: ex =>
    match parseMantissa mant, parseExp ex with
    | some (n, s), some e =>
      if 0 ≤ e then some (mkRat (n * (10 : ℤ) ^ e.toNat) (10 ^ s))
      else some (mkRat n (10 ^ (s + e.natAbs)))
    | _, _ => none

/-- Python `float(s)` on decimal literals: surrounding whitespace stripped,
optional sign, mantissa, optional exponent; `none` models the raised
`ValueError`.  (`inf`/`nan` and digit underscores are not modelled; the
ledger amounts are plain decimals.) -/
def pyFloat (s : String) : Option ℚ :=
  let cs := (((s.data.dropWhile isPySpace).reverse).dropWhile isPySpace).reverse
  match cs with
  | '-' :: rest => (pyFloatCore rest).map Neg.neg
  | '+' :: rest => pyFloatCore rest
  | _ => pyFloatCore cs

/-- `vendor["Amount"].replace(',', '').replace('$', '')` from
`analyze_vendors`. -/
def amount_cleaned (s : String) : String :=
  pyReplaceChar '$' (pyReplaceChar ',' s)

/-- `float(vendor["Amount"].replace(',', '').replace('$', ''))`. -/
def parse_amount (s : String) : Option ℚ :=
  pyFloat (amount_cleaned s)

/-- Python `str(x)` for a float `x`; exact rendering is irrelevant to every
claim (it only feeds prompt text and the CSV amount cell is kept numeric),
so integers render as `"<n>.0"` like Python and other rationals use the
`ℚ` printer. -/
def pyFloatStr (q : ℚ) : String :=
  if q.den = 1 then toString q.num ++ ".0" else toString q

/-! ### Prompt templates (exact text of `vendor_ai.py`, placeholders
substituted) -/

/-- `departments` list (the fixed 12-label taxonomy). -/
def departments : List String :=
  ["Engineering", "Facilities", "G&A", "Legal", "M&A", "Marketing",
   "SaaS", "Product", "Professional Services", "Sales", "Support", "Finance"]

/-- `", ".join(departments)`, the partial variable of the classification
prompt. -/
def departmentsStr : String :=
  String.intercalate ", " departments

/-- `query_template` with `{vendor_name}` filled. -/
def query_template (vendor_name : String) : String :=
  "Generate a search query to find what services " ++ vendor_name ++ " provides."

/-- `summary_template` with `{search_results}` filled. -/
def summary_template (search_results : String) : String :=
  "\nAnalyze the search results about a vendor and infer the core services they provide. \n" ++
  "Focus on identifying patterns, key offerings, and the primary value proposition—not just summarizing the text. \n" ++
  "Avoid mentioning the vendor\x27s name. Be concise and descriptive in one sentence.  \n\n" ++
  "Search Results:  \n" ++ search_results ++ "  \n\n" ++
  "Description of Services:"

/-- `classification_template` with `{service_description}` and the
`{departments}` partial filled. -/
def classification_template (service_description : String) : String :=
  "\nObjective: \n" ++
  "Analyze the following vendor service description and any other relevant context to determine the most appropriate departmental category. \n" ++
  "Focus on the core function of the service, not the vendor\x27s name.  \n\n" ++
  "Service Description: " ++ service_description ++ "  \n\n" ++
  "Available Categories: " ++ departmentsStr ++ "  \n\n" ++
  "Guidelines:\n" ++
  "- Choose the category that best aligns with the primary purpose of the service.  \n" ++
  "- If the service spans multiple departments, pick the one it most directly supports.  \n" ++
  "- Return only the category name, without explanations or extra text.  \n\n" ++
  "Answer:"

/-- The dictionary accumulated by `analyze_pipeline` via the chained
`RunnablePassthrough.assign` steps. -/
structure AnalyzeResult where
  vendor_name : String
  search_query : String
  search_results : String
  service_description : String
  category : String
deriving DecidableEq

/-- `analyze_pipeline`: query generation, search, summary, classification,
each `assign` adding one key; any exception aborts the chain. -/
def analyze_pipeline (o : Oracles) (vendor_name : String) : Except Err AnalyzeResult :=
  match o.llm (query_template vendor_name) with
  | .error e => .error e
  | .ok search_query =>
    match o.search search_query with
    | .error e => .error e
    | .ok search_results =>
      match o.llm (summary_template search_results) with
      | .error e => .error e
      | .ok service_description =>
        match o.llm (classification_template service_description) with
        | .error e => .error e
        | .ok category =>
          .ok { vendor_name, search_query, search_results, service_description, category }

/-! ### Records, events, and the per-stage functions -/

/-- One data row of the input ledger, as produced by `csv.DictReader`:
columns `Vendor` and `Amount` (a raw string, possibly with `$` and `,`). -/
structure InRow where
  Vendor : String
  Amount : String
deriving DecidableEq

/-- A processed vendor dictionary.  `analyze_vendors` builds it with keys
`Vendor`, `Amount`, `Description`, `Category`; `recommend_actions` later
adds the `Action` key in place, so `Action` is an `Option` that starts out
`none`. -/
structure VendorRecord where
  Vendor : String
  Amount : ℚ
  Description : String
  Category : String
  Action : Option String := none
deriving DecidableEq

/-- A cell of the output CSV: `csv.DictWriter` writes the string fields
verbatim and the float amount via `str`; we keep the amount numeric in the
cell (quoting and rendering are not claim-relevant). -/
inductive Field where
  | str (v : String)
  | num (v : ℚ)
deriving DecidableEq

/-- Observable events of a run: a vendor entering the enrichment loop, a
vendor entering the recommendation loop, and the two file writes. -/
inductive Event where
  | startedVendor (name : String)
  | recommendingVendor (name : String)
  | wroteOpportunities (content : String)
  | wroteResults (rows : List (List Field))
deriving DecidableEq

/-- `analyze_vendors`: for each input row in order, run `analyze_pipeline`
on the vendor name, then build the processed dictionary (parsing the
amount).  An exception from an external call or from `float` propagates,
abandoning the rest of the list.  Alongside the result, the trace of loop
iterations that were started. -/
def analyze_vendors (o : Oracles) : List InRow → Except Err (List VendorRecord) × List Event
  | [] => (.ok [], [])
  | v :: rest =>
    match analyze_pipeline o v.Vendor with
    | .error e => (.error e, [.startedVendor v.Vendor])
    | .ok result =>
      match parse_amount v.Amount with
      | none => (.error (.parseError v.Amount), [.startedVendor v.Vendor])
      | some amt =>
        match analyze_vendors o rest with
        | (res, evs) =>
          (res.map (fun l =>
            { Vendor := v.Vendor, Amount := amt,
              Description := result.service_description,
              Category := result.category } :: l),
           .startedVendor v.Vendor :: evs)

/-- One line of the shared portfolio context string:
`f"{v['Vendor']} (${v['Amount']}, {v['Category']}): {v['Description']}"`. -/
def vendor_summary_line (v : VendorRecord) : String :=
  v.Vendor ++ " ($" ++ pyFloatStr v.Amount ++ ", " ++ v.Category ++ "): " ++ v.Description

/-- `vendor_summary`: the portfolio context built once, before the
recommendation loop, from every processed record. -/
def vendor_summary (processed_data : List VendorRecord) : String :=
  String.intercalate "\n" (processed_data.map vendor_summary_line)

/-- `recommendation_template` with all five placeholders filled (`amount`
is `str(float)` of the spend). -/
def recommendation_template (vsummary vendor_name amount category description : String) : String :=
  "\n    Objective:  \n" ++
  "    Analyze the vendor portfolio holistically and recommend the best action for \n" ++
  "    " ++ vendor_name ++ " based on strategic alignment, cost efficiency, and redundancy.  \n\n" ++
  "    Input Data:  \n" ++
  "    - Full Vendor Portfolio: " ++ vsummary ++ "  \n" ++
  "    - Target Vendor: " ++ vendor_name ++ "  \n" ++
  "    - Spend: $" ++ amount ++ "  \n" ++
  "    - Category: " ++ category ++ "  \n" ++
  "    - Service Description: " ++ description ++ "  \n\n" ++
  "    Evaluation Criteria:  \n" ++
  "    1. Duplicates/Overlaps: Does another vendor provide the same or similar service?  \n" ++
  "    2. Spend Efficiency: Is the cost justified relative to value?  \n" ++
  "    3. Portfolio Fit: Does this vendor align with long-term needs?  \n\n" ++
  "    Possible Actions:  \n" ++
  "    - `optimize` (Renegotiate terms, improve efficiency)  \n" ++
  "    - `consolidate: [Vendor Name]` (Merge with a specific vendor; must specify)  \n" ++
  "    - `terminate` (Discontinue due to irelevant to business operations, redundancy or low value)  \n\n" ++
  "    Rules:  \n" ++
  "    - Return ONLY the action in the exact format:  \n" ++
  "    - `optimize`  \n" ++
  "    - `consolidate: [Vendor Name]`  \n" ++
  "    - `terminate`  \n" ++
  "    - Never add explanations or deviations.  \n\n" ++
  "    Example Outputs:  \n" ++
  "    - \"consolidate: AWS\"  \n" ++
  "    - \"terminate\"  \n" ++
  "    - \"optimize\"  \n\n" ++
  "Recommendation for " ++ vendor_name ++ ": "

/-- The recommendation loop over the (shared) record list.  Each response
goes through `x.content.strip().lower()` and is stored under the `Action`
key of that vendor record; the loop mutates the records of its input list
in place, modelled by rebuilding the list with `Action` set. -/
def recommend_actions_loop (o : Oracles) (vsummary : String) :
    List VendorRecord → Except Err (List VendorRecord) × List Event
  | [] => (.ok [], [])
  | v :: rest =>
    match o.llm (recommendation_template vsummary v.Vendor (pyFloatStr v.Amount)
        v.Category v.Description) with
    | .error e => (.error e, [.recommendingVendor v.Vendor])
    | .ok reply =>
      match recommend_actions_loop o vsummary rest with
      | (res, evs) =>
        (res.map (fun l => { v with Action := some (pyLower (pyStrip reply)) } :: l),
         .recommendingVendor v.Vendor :: evs)

/-- `recommend_actions`: build the shared `vendor_summary` context, then
run the per-vendor recommendation loop, returning the same (mutated)
record list. -/
def recommend_actions (o : Oracles) (processed_data : List VendorRecord) :
    Except Err (List VendorRecord) × List Event :=
  recommend_actions_loop o (vendor_summary processed_data) processed_data

/-- One line of the opportunity-stage context:
`f"{v['Vendor']} (${v['Amount']}): {v['Action']} | {v['Description']}"`.
In the pipeline `Action` is always present by this point (set by
`recommend_actions`); a missing key would raise in Python, rendered here as
the empty string and never reached by `full_pipeline`. -/
def vendor_actions_line (v : VendorRecord) : String :=
  v.Vendor ++ " ($" ++ pyFloatStr v.Amount ++ "): " ++ v.Action.getD "" ++ " | " ++ v.Description

/-- `vendor_actions`, the joined context lines. -/
def vendor_actions_str (processed_data_with_actions : List VendorRecord) : String :=
  String.intercalate "\n" (processed_data_with_actions.map vendor_actions_line)

/-- `analysis_template` with `{vendor_actions}` filled. -/
def analysis_template (vendor_actions : String) : String :=
  "\n    Analyze the vendor dataset holistically and identify the TOP 3 cost-saving opportunities with the highest potential impact. \n" ++
  "    Evaluate each opportunity using these criteria in order of priority:\n\n" ++
  "    1. Potential savings magnitude (prioritize highest $ impact)\n" ++
  "    2. Service/category redundancy (overlap with other vendors)\n" ++
  "    3. Strategic alignment (low-value or non-core services)\n\n" ++
  "    Input Data:\n" ++
  "    " ++ vendor_actions ++ "\n\n" ++
  "    Required Output Format:\n" ++
  "    - Strictly CSV format with EXACTLY these columns: \"Vendor name\",\"Recommended action\",\"Explanation\"\n" ++
  "    - Each explanation must include:\n" ++
  "    Specific $ impact potential (estimate if exact unavailable)\n" ++
  "    Clear redundancy/overlap evidence (if applicable)\n" ++
  "    Strategic rationale\n\n" ++
  "    Rules:\n" ++
  "    - Output ONLY valid CSV data - no headers, titles, or explanations\n" ++
  "    - Never use markdown code blocks or quotes\n" ++
  "    - Limit the output to only the TOP 3\n" ++
  "    - If fewer than 3 opportunities exist, leave remaining rows empty\n\n" ++
  "    Example Output:\n" ++
  "    \"Acme Corp\",\"consolidate: XYZ Inc\",\"$250K potential savings, duplicate CRM tools\"\n" ++
  "    \"Beta LLC\",\"terminate\",\"$180K savings, non-core legal service\"\n" ++
  "    \"Gamma Inc\",\"optimize\",\"$90K via contract renegotiation\"\n"

/-- `identify_top_opportunities`: one model call over the combined context;
on success the raw response text is written, as-is, to the timestamped
opportunities text file, then returned. -/
def identify_top_opportunities (o : Oracles) (processed_data_with_actions : List VendorRecord) :
    Except Err String × List Event :=
  match o.llm (analysis_template (vendor_actions_str processed_data_with_actions)) with
  | .error e => (.error e, [])
  | .ok opportunities => (.ok opportunities, [.wroteOpportunities opportunities])

/-- The `fieldnames` header row of `csv.DictWriter`. -/
def csvHeader : List Field :=
  [.str "Vendor", .str "Amount", .str "Description", .str "Category", .str "Action"]

/-- The CSV cell for the `Action` key: `DictWriter` fills a missing key
with its `restval` (`None`), written as the empty field. -/
def actionField : Option String → Field
  | some a => .str a
  | none => .str ""

/-- The CSV data row of one record, in `fieldnames` order. -/
def csv_row (v : VendorRecord) : List Field :=
  [.str v.Vendor, .num v.Amount, .str v.Description, .str v.Category, actionField v.Action]

/-- `save_to_csv`: header row then one row per record, in list order; the
value is the content of the timestamped results file. -/
def save_to_csv (data : List VendorRecord) : List (List Field) :=
  csvHeader :: data.map csv_row

/-- The pipeline dictionary after a successful run (`results` in the
source): the keys accumulated by the chained `RunnablePassthrough.assign`
tools.  `input_file` holds the parsed ledger rows. -/
structure PipeDict where
  input_file : List InRow
  processed_data : Option (List VendorRecord) := none
  processed_data_with_actions : Option (List VendorRecord) := none
  top_opportunities : Option String := none
deriving DecidableEq

/-- `full_pipeline`: process vendors, add actions, identify opportunities
(which writes the text file), then `save_to_csv(x["processed_data"])`.
`recommend_actions` mutates the dictionaries of `processed_data` in place
and returns that same list, so after `add_actions_tool` the keys
`processed_data` and `processed_data_with_actions` alias one list: both are
bound to the actioned records, and the final save (which reads
`processed_data`) sees the `Action` values. -/
def full_pipeline (o : Oracles) (input : List InRow) : Except Err PipeDict × List Event :=
  match analyze_vendors o input with
  | (.error e, t1) => (.error e, t1)
  | (.ok processed, t1) =>
    match recommend_actions o processed with
    | (.error e, t2) => (.error e, t1 ++ t2)
    | (.ok actioned, t2) =>
      match identify_top_opportunities o actioned with
      | (.error e, t3) => (.error e, t1 ++ t2 ++ t3)
      | (.ok opportunities, t3) =>
        (.ok { input_file := input,
               processed_data := some actioned,
               processed_data_with_actions := some actioned,
               top_opportunities := some opportunities },
         t1 ++ t2 ++ t3 ++ [.wroteResults (save_to_csv actioned)])

/-! ### Spec-side reading of the opportunities text (claim C7)

The pipeline itself never parses the opportunity response; these two
definitions follow the specification wording ("at most 3 data rows and
each row, if present, has exactly 3 fields", blank rows permitted) so that
the structural property can be stated about the persisted text. -/

/-- Split a character list at every occurrence of a separator. -/
def splitChar (c : Char) : List Char → List (List Char)
  | [] => [[]]
  | a :: rest =>
    match splitChar c rest with
    | [] => if a == c then [[], []] else [[a]]
    | r :: rs => if a == c then [] :: r :: rs else (a :: r) :: rs

/-- Follows the spec wording: the data rows of the opportunity output are
its nonblank lines (blank rows permitted when fewer than 3 opportunities
exist). -/
def spec_data_rows (s : String) : List String :=
  ((splitChar '\n' s.data).map String.mk).filter (fun l => l ≠ "")

/-- Follows the spec wording: the fields of one output row, comma
separated (`"Vendor name","Recommended action","Explanation"`). -/
def spec_row_fields (row : String) : List String :=
  (splitChar ',' row.data).map String.mk

/-! ### Deterministic stub oracles (used to instantiate the theorems) -/

/-- A stub that always succeeds: every generation reply is the department
label `"Engineering"`, every search returns fixed text. -/
def stubOracle : Oracles :=
  ⟨fun _ => .ok "Engineering", fun _ => .ok "search results"⟩

/-- A stub whose generation echoes its prompt and whose search capability
fails exactly on the query generated for vendor `"Bravo"`. -/
def stubFailSearch : Oracles :=
  ⟨fun p => .ok p,
   fun q => if q = query_template "Bravo" then .error (.externalError "search down")
            else .ok "results"⟩

/-- A stub whose generation replies are the out-of-taxonomy label
`"Blorp"`. -/
def stubOutOfSet : Oracles :=
  ⟨fun _ => .ok "Blorp", fun _ => .ok "r"⟩

/-- A stub whose generation replies are malformed action strings with
surrounding whitespace and uppercase letters. -/
def stubMalformed : Oracles :=
  ⟨fun _ => .ok "  Not-An-Action X  ", fun _ => .ok "r"⟩

/-- An opportunity-stage reply with four data rows (one more than the
contract allows). -/
def fourRowResponse : String :=
  "a,b,c\nd,e,f\ng,h,i\nj,k,l"

/-- A stub whose generation reply is `fourRowResponse`. -/
def stubFourRows : Oracles :=
  ⟨fun _ => .ok fourRowResponse, fun _ => .ok "r"⟩

/-- A well-formed opportunity-stage reply: two quoted data rows of three
fields each. -/
def twoRowResponse : String :=
  "\"A\",\"terminate\",\"saves money\"\n\"B\",\"optimize\",\"renegotiate terms\""

/-- A stub whose generation reply is `twoRowResponse`. -/
def stubTwoRows : Oracles :=
  ⟨fun _ => .ok twoRowResponse, fun _ => .ok "r"⟩

/-! ### Helper lemmas -/

/-- A successful `analyze_pipeline` run records exactly the replies of its
four external calls, in chain order. -/
lemma analyze_pipeline_ok (o : Oracles) (n : String) (r : AnalyzeResult)
    (h : analyze_pipeline o n = .ok r) :
    r.vendor_name = n ∧
    o.llm (query_template n) = .ok r.search_query ∧
    o.search r.search_query = .ok r.search_results ∧
    o.llm (summary_template r.search_results) = .ok r.service_description ∧
    o.llm (classification_template r.service_description) = .ok r.category := by
  unfold analyze_pipeline at h
  split at h
  next e heq => cases h
  next q hq =>
    split at h
    next e heq => cases h
    next sr hsr =>
      split at h
      next e heq => cases h
      next sd hsd =>
        split at h
        next e heq => cases h
        next c hc =>
          cases h
          exact ⟨rfl, hq, hsr, hsd, hc⟩

/-- Anatomy of a successful enrichment loop: one record per input row, the
trace is one loop-entry event per row in order, and each output record is
built from the replies and the parsed amount of its own row. -/
lemma analyze_vendors_ok_spec (o : Oracles) :
    ∀ (l : List InRow) (res : List VendorRecord) (evs : List Event),
      analyze_vendors o l = (.ok res, evs) →
      res.length = l.length ∧
      evs = l.map (fun v => .startedVendor v.Vendor) ∧
      ∀ (i : ℕ) (v : InRow), l[i]? = some v → ∃ r amt,
        analyze_pipeline o v.Vendor = .ok r ∧
        parse_amount v.Amount = some amt ∧
        res[i]? = some { Vendor := v.Vendor, Amount := amt,
                         Description := r.service_description,
                         Category := r.category, Action := none } := by
  intro l
  induction l with
  | nil =>
    intro res evs h
    simp only [analyze_vendors, Prod.mk.injEq, Except.ok.injEq] at h
    obtain ⟨h1, h2⟩ := h
    subst h1; subst h2
    refine ⟨rfl, rfl, ?_⟩
    intro i v hv
    simp at hv
  | cons v rest ih =>
    intro res evs h
    simp only [analyze_vendors] at h
    cases hap : analyze_pipeline o v.Vendor with
    | error e => rw [hap] at h; simp at h
    | ok r =>
      rw [hap] at h
      cases hpa : parse_amount v.Amount with
      | none => rw [hpa] at h; simp at h
      | some amt =>
        rw [hpa] at h
        rcases hrec : analyze_vendors o rest with ⟨res0, evs0⟩
        rw [hrec] at h
        cases res0 with
        | error e => simp [Except.map] at h
        | ok l0 =>
          simp only [Except.map, Prod.mk.injEq, Except.ok.injEq] at h
          obtain ⟨h1, h2⟩ := h
          subst h1; subst h2
          obtain ⟨hlen, htr, hidx⟩ := ih l0 evs0 hrec
          refine ⟨by simp [hlen], by simp [htr], ?_⟩
          intro i w hw
          cases i with
          | zero =>
            simp only [List.getElem?_cons_zero, Option.some.injEq] at hw
            subst hw
            exact ⟨r, amt, hap, hpa, by simp⟩
          | succ j =>
            simp only [List.getElem?_cons_succ] at hw ⊢
            exact hidx j w hw

/-- Every event the enrichment loop ever emits (also on a failing run) is
a loop-entry (`startedVendor`) event. -/
lemma analyze_vendors_events (o : Oracles) :
    ∀ (l : List InRow), ∀ ev ∈ (analyze_vendors o l).2, ∃ n, ev = .startedVendor n := by
  intro l
  induction l with
  | nil => intro ev hev; simp [analyze_vendors] at hev
  | cons v rest ih =>
    intro ev hev
    simp only [analyze_vendors] at hev
    cases hap : analyze_pipeline o v.Vendor with
    | error e =>
      rw [hap] at hev
      simp at hev
      exact ⟨v.Vendor, hev⟩
    | ok r =>
      rw [hap] at hev
      cases hpa : parse_amount v.Amount with
      | none =>
        rw [hpa] at hev
        simp at hev
        exact ⟨v.Vendor, hev⟩
      | some amt =>
        rw [hpa] at hev
        rcases hrec : analyze_vendors o rest with ⟨res0, evs0⟩
        rw [hrec] at hev
        simp only [List.mem_cons] at hev
        rcases hev with hev | hev
        · exact ⟨v.Vendor, hev⟩
        · exact ih ev (by rw [hrec]; exact hev)

/-- Anatomy of a successful recommendation loop: one output record per
input record, the trace is one loop-entry event per record in order, and
each output record is its own input record with only the `Action` key set,
to the trimmed and lowercased model reply. -/
lemma recommend_actions_loop_spec (o : Oracles) (vs : String) :
    ∀ (pd out : List VendorRecord) (evs : List Event),
      recommend_actions_loop o vs pd = (.ok out, evs) →
      out.length = pd.length ∧
      evs = pd.map (fun v => .recommendingVendor v.Vendor) ∧
      ∀ (i : ℕ) (v : VendorRecord), pd[i]? = some v → ∃ raw,
        o.llm (recommendation_template vs v.Vendor (pyFloatStr v.Amount)
          v.Category v.Description) = .ok raw ∧
        out[i]? = some { v with Action := some (pyLower (pyStrip raw)) } := by
  intro pd
  induction pd with
  | nil =>
    intro out evs h
    simp only [recommend_actions_loop, Prod.mk.injEq, Except.ok.injEq] at h
    obtain ⟨h1, h2⟩ := h
    subst h1; subst h2
    refine ⟨rfl, rfl, ?_⟩
    intro i v hv
    simp at hv
  | cons v rest ih =>
    intro out evs h
    simp only [recommend_actions_loop] at h
    split at h
    next e heq => simp at h
    next reply hreply =>
      rcases hrec : recommend_actions_loop o vs rest with ⟨res0, evs0⟩
      rw [hrec] at h
      cases res0 with
      | error e => simp [Except.map] at h
      | ok l0 =>
        simp only [Except.map, Prod.mk.injEq, Except.ok.injEq] at h
        obtain ⟨h1, h2⟩ := h
        subst h1; subst h2
        obtain ⟨hlen, htr, hidx⟩ := ih l0 evs0 hrec
        refine ⟨by simp [hlen], by simp [htr], ?_⟩
        intro i w hw
        cases i with
        | zero =>
          simp only [List.getElem?_cons_zero, Option.some.injEq] at hw
          subst hw
          exact ⟨reply, hreply, by simp⟩
        | succ j =>
          simp only [List.getElem?_cons_succ] at hw ⊢
          exact hidx j w hw

/-- Every event the recommendation loop ever emits (also on a failing run)
is a loop-entry (`recommendingVendor`) event. -/
lemma recommend_actions_loop_events (o : Oracles) (vs : String) :
    ∀ (pd : List VendorRecord), ∀ ev ∈ (recommend_actions_loop o vs pd).2,
      ∃ n, ev = .recommendingVendor n := by
  intro pd
  induction pd with
  | nil => intro ev hev; simp [recommend_actions_loop] at hev
  | cons v rest ih =>
    intro ev hev
    simp only [recommend_actions_loop] at hev
    split at hev
    next e heq =>
      simp at hev
      exact ⟨v.Vendor, hev⟩
    next reply hreply =>
      rcases hrec : recommend_actions_loop o vs rest with ⟨res0, evs0⟩
      rw [hrec] at hev
      simp only [List.mem_cons] at hev
      rcases hev with hev | hev
      · exact ⟨v.Vendor, hev⟩
      · exact ih ev (by rw [hrec]; exact hev)

/-- A failing opportunity stage performs no write. -/
lemma identify_top_opportunities_error (o : Oracles) (pda : List VendorRecord)
    (e : Err) (evs : List Event)
    (h : identify_top_opportunities o pda = (.error e, evs)) : evs = [] := by
  unfold identify_top_opportunities at h
  split at h
  next e0 heq => cases h; rfl
  next opp heq => simp at h

/-- A successful opportunity stage returns exactly the model reply and
writes exactly that reply to the opportunities file. -/
lemma identify_top_opportunities_ok (o : Oracles) (pda : List VendorRecord)
    (opp : String) (evs : List Event)
    (h : identify_top_opportunities o pda = (.ok opp, evs)) :
    o.llm (analysis_template (vendor_actions_str pda)) = .ok opp ∧
    evs = [.wroteOpportunities opp] := by
  unfold identify_top_opportunities at h
  split at h
  next e0 heq => simp at h
  next opp0 heq =>
    simp only [Prod.mk.injEq, Except.ok.injEq] at h
    obtain ⟨h1, h2⟩ := h
    subst h1; subst h2
    exact ⟨heq, rfl⟩

/-- Anatomy of a successful full run: each stage succeeded in order, both
pipeline keys alias the actioned list, and the trace is the stage traces
followed by the results-file write. -/
lemma full_pipeline_ok_spec (o : Oracles) (input : List InRow) (d : PipeDict)
    (evs : List Event) (h : full_pipeline o input = (.ok d, evs)) :
    ∃ processed actioned opp,
      analyze_vendors o input =
        (.ok processed, input.map (fun v => .startedVendor v.Vendor)) ∧
      recommend_actions o processed =
        (.ok actioned, processed.map (fun v => .recommendingVendor v.Vendor)) ∧
      identify_top_opportunities o actioned = (.ok opp, [.wroteOpportunities opp]) ∧
      d = { input_file := input,
            processed_data := some actioned,
            processed_data_with_actions := some actioned,
            top_opportunities := some opp } ∧
      evs = input.map (fun v => .startedVendor v.Vendor) ++
            processed.map (fun v => .recommendingVendor v.Vendor) ++
            [.wroteOpportunities opp] ++
            [.wroteResults (save_to_csv actioned)] := by
  unfold full_pipeline at h
  split at h
  next e t1 heq => simp at h
  next processed t1 heq =>
    split at h
    next e t2 heq2 => simp at h
    next actioned t2 heq2 =>
      split at h
      next e t3 heq3 => simp at h
      next opp t3 heq3 =>
        simp only [Prod.mk.injEq, Except.ok.injEq] at h
        obtain ⟨hd, hevs⟩ := h
        subst hd; subst hevs
        have ht1 := (analyze_vendors_ok_spec o input processed t1 heq).2.1
        have ht2 := (recommend_actions_loop_spec o (vendor_summary processed)
          processed actioned t2 heq2).2.1
        have ht3 := (identify_top_opportunities_ok o actioned opp t3 heq3).2
        subst ht1; subst ht2; subst ht3
        exact ⟨processed, actioned, opp, heq, heq2, heq3, rfl, by simp⟩

/-- A failing full run performs no write at all: every event of its trace
is a per-vendor progress event. -/
lemma full_pipeline_error_events (o : Oracles) (input : List InRow) (e : Err)
    (evs : List Event) (h : full_pipeline o input = (.error e, evs)) :
    ∀ ev ∈ evs, (∃ n, ev = .startedVendor n) ∨ (∃ n, ev = .recommendingVendor n) := by
  unfold full_pipeline at h
  split at h
  next e0 t1 heq =>
    simp only [Prod.mk.injEq] at h
    obtain ⟨-, hevs⟩ := h
    subst hevs
    intro ev hev
    exact .inl (analyze_vendors_events o input ev (by rw [heq]; exact hev))
  next processed t1 heq =>
    split at h
    next e0 t2 heq2 =>
      simp only [Prod.mk.injEq] at h
      obtain ⟨-, hevs⟩ := h
      subst hevs
      intro ev hev
      rcases List.mem_append.mp hev with hev | hev
      · exact .inl (analyze_vendors_events o input ev (by rw [heq]; exact hev))
      · exact .inr (recommend_actions_loop_events o (vendor_summary processed)
          processed ev
          (by rw [show recommend_actions_loop o (vendor_summary processed) processed
                    = (.error e0, t2) from heq2]; exact hev))
    next actioned t2 heq2 =>
      split at h
      next e0 t3 heq3 =>
        simp only [Prod.mk.injEq] at h
        obtain ⟨-, hevs⟩ := h
        subst hevs
        have ht3 : t3 = [] := identify_top_opportunities_error o actioned e0 t3 heq3
        subst ht3
        intro ev hev
        simp only [List.append_nil] at hev
        rcases List.mem_append.mp hev with hev | hev
        · exact .inl (analyze_vendors_events o input ev (by rw [heq]; exact hev))
        · exact .inr (recommend_actions_loop_events o (vendor_summary processed)
            processed ev
            (by rw [show recommend_actions_loop o (vendor_summary processed) processed
                      = (.ok actioned, t2) from heq2]; exact hev))
      next opp t3 heq3 => simp at h

/-- Removing `','` and `'$'` from a character list is idempotent. -/
lemma cleanChars_idem (l : List Char) :
    ((((l.filter (fun a => a != ',')).filter (fun a => a != '$')).filter
        (fun a => a != ',')).filter (fun a => a != '$')) =
    (l.filter (fun a => a != ',')).filter (fun a => a != '$') := by
  simp only [List.filter_filter]
  apply List.filter_congr
  intro a _
  cases hb1 : (a != ',') <;> cases hb2 : (a != '$') <;> simp [hb1, hb2]

/-- `replace(',','').replace('$','')` is idempotent on strings. -/
lemma amount_cleaned_idem (s : String) :
    amount_cleaned (amount_cleaned s) = amount_cleaned s :=
  congrArg String.mk (cleanChars_idem s.data)

/-- Successful enrichment preserves vendor names in order. -/
lemma analyze_vendors_ok_names (o : Oracles) (l : List InRow)
    (res : List VendorRecord) (evs : List Event)
    (h : analyze_vendors o l = (.ok res, evs)) :
    res.map VendorRecord.Vendor = l.map InRow.Vendor := by
  obtain ⟨hlen, -, hidx⟩ := analyze_vendors_ok_spec o l res evs h
  apply List.ext_getElem?
  intro i
  simp only [List.getElem?_map]
  cases hv : l[i]? with
  | none =>
    have hlge : l.length ≤ i := List.getElem?_eq_none_iff.mp hv
    have hres : res[i]? = none := List.getElem?_eq_none_iff.mpr (by omega)
    simp [hres]
  | some v =>
    obtain ⟨r, amt, -, -, hres⟩ := hidx i v hv
    simp [hres]

/-- A successful recommendation loop preserves vendor names in order. -/
lemma recommend_actions_loop_names (o : Oracles) (vs : String)
    (pd out : List VendorRecord) (evs : List Event)
    (h : recommend_actions_loop o vs pd = (.ok out, evs)) :
    out.map VendorRecord.Vendor = pd.map VendorRecord.Vendor := by
  obtain ⟨hlen, -, hidx⟩ := recommend_actions_loop_spec o vs pd out evs h
  apply List.ext_getElem?
  intro i
  simp only [List.getElem?_map]
  cases hv : pd[i]? with
  | none =>
    have hlge : pd.length ≤ i := List.getElem?_eq_none_iff.mp hv
    have hres : out[i]? = none := List.getElem?_eq_none_iff.mpr (by omega)
    simp [hres]
  | some v =>
    obtain ⟨raw, -, hres⟩ := hidx i v hv
    simp [hres]

/-! ### The claims -/

/-- Claim C1: for every input ledger (including a single-row and an empty
header-only ledger, both covered by the quantification over `input`), the
vendor rows written to the output CSV are in exactly the input order, and
that order is preserved through the enrichment stage
(`analyze_vendors`) and the recommendation stage (`recommend_actions`)
into the persisted file. -/
theorem C1_order_preserved :
    (∀ (o : Oracles) (l : List InRow) (res : List VendorRecord) (evs : List Event),
        analyze_vendors o l = (.ok res, evs) →
        res.map VendorRecord.Vendor = l.map InRow.Vendor) ∧
    (∀ (o : Oracles) (pd out : List VendorRecord) (evs : List Event),
        recommend_actions o pd = (.ok out, evs) →
        out.map VendorRecord.Vendor = pd.map VendorRecord.Vendor) ∧
    (∀ (o : Oracles) (input : List InRow) (d : PipeDict) (evs : List Event),
        full_pipeline o input = (.ok d, evs) →
        ∃ actioned, d.processed_data = some actioned ∧
          Event.wroteResults (save_to_csv actioned) ∈ evs ∧
          (save_to_csv actioned).tail.map List.head? =
            input.map (fun v => some (Field.str v.Vendor))) := by
  refine ⟨analyze_vendors_ok_names, ?_, ?_⟩
  · intro o pd out evs h
    exact recommend_actions_loop_names o (vendor_summary pd) pd out evs h
  · intro o input d evs h
    obtain ⟨processed, actioned, opp, h1, h2, h3, hd, hevs⟩ :=
      full_pipeline_ok_spec o input d evs h
    subst hd; subst hevs
    refine ⟨actioned, rfl, by simp, ?_⟩
    have hn1 : actioned.map VendorRecord.Vendor = processed.map VendorRecord.Vendor :=
      recommend_actions_loop_names o (vendor_summary processed) processed actioned _ h2
    have hn2 : processed.map VendorRecord.Vendor = input.map InRow.Vendor :=
      analyze_vendors_ok_names o input processed _ h1
    calc (save_to_csv actioned).tail.map List.head?
        = (actioned.map VendorRecord.Vendor).map (fun n => some (Field.str n)) := by
          simp [save_to_csv, List.map_map, csv_row, Function.comp]
      _ = (input.map InRow.Vendor).map (fun n => some (Field.str n)) := by rw [hn1, hn2]
      _ = input.map (fun v => some (Field.str v.Vendor)) := by
          simp [List.map_map, Function.comp]

/-- Witness for C1, instantiated at the specification end-to-end
scenario: two ledger rows processed with the deterministic stub. -/
theorem C1_order_preserved_witness :
    ∃ actioned,
      (PipeDict.mk [InRow.mk "AWS" "$1,200.00", InRow.mk "Zoom" "500"]
        (some [VendorRecord.mk "AWS" 1200 "Engineering" "Engineering" (some "engineering"),
               VendorRecord.mk "Zoom" 500 "Engineering" "Engineering" (some "engineering")])
        (some [VendorRecord.mk "AWS" 1200 "Engineering" "Engineering" (some "engineering"),
               VendorRecord.mk "Zoom" 500 "Engineering" "Engineering" (some "engineering")])
        (some "Engineering")).processed_data = some actioned ∧
      Event.wroteResults (save_to_csv actioned) ∈
        [Event.startedVendor "AWS", Event.startedVendor "Zoom",
         Event.recommendingVendor "AWS", Event.recommendingVendor "Zoom",
         Event.wroteOpportunities "Engineering",
         Event.wroteResults (save_to_csv
           [VendorRecord.mk "AWS" 1200 "Engineering" "Engineering" (some "engineering"),
            VendorRecord.mk "Zoom" 500 "Engineering" "Engineering" (some "engineering")])] ∧
      (save_to_csv actioned).tail.map List.head? =
        [InRow.mk "AWS" "$1,200.00", InRow.mk "Zoom" "500"].map
          (fun v => some (Field.str v.Vendor)) :=
  C1_order_preserved.2.2 stubOracle [InRow.mk "AWS" "$1,200.00", InRow.mk "Zoom" "500"]
    _ _ (by decide)

/-- Claim C2: the enrichment amount parse applied to any amount string
gives the same value as the parse applied to the string with all `$` and
`,` separators removed; in particular `"$1,250.00"` parses to `1250`. -/
theorem C2_amount_parse_ignores_separators :
    (∀ s : String, parse_amount s = parse_amount (amount_cleaned s)) ∧
    parse_amount "$1,250.00" = some 1250 := by
  constructor
  · intro s
    show pyFloat (amount_cleaned s) = pyFloat (amount_cleaned (amount_cleaned s))
    rw [amount_cleaned_idem]
  · decide

/-- Claim C3: an uncaught external-call failure aborts the run: a failing
run writes neither the results CSV nor the opportunities file, and in the
concrete scenario of a search failure on vendor 2 of 3 the run stops with
only vendors 1 and 2 having entered the loop — vendor 3 is never
processed and no file-write event occurs. -/
theorem C3_failure_aborts_run :
    (∀ (o : Oracles) (input : List InRow) (e : Err) (evs : List Event),
        full_pipeline o input = (.error e, evs) →
        (∀ rows, Event.wroteResults rows ∉ evs) ∧
        (∀ c, Event.wroteOpportunities c ∉ evs)) ∧
    (∀ (o : Oracles) (v1 v2 v3 : InRow) (e : Err)
        (q1 sr1 sd1 c1 : String) (a1 : ℚ) (q2 : String),
        o.llm (query_template v1.Vendor) = .ok q1 →
        o.search q1 = .ok sr1 →
        o.llm (summary_template sr1) = .ok sd1 →
        o.llm (classification_template sd1) = .ok c1 →
        parse_amount v1.Amount = some a1 →
        o.llm (query_template v2.Vendor) = .ok q2 →
        o.search q2 = .error e →
        full_pipeline o [v1, v2, v3] =
          (.error e, [.startedVendor v1.Vendor, .startedVendor v2.Vendor])) := by
  constructor
  · intro o input e evs h
    have hall := full_pipeline_error_events o input e evs h
    constructor
    · intro rows hmem
      rcases hall _ hmem with ⟨n, hn⟩ | ⟨n, hn⟩ <;> cases hn
    · intro c hmem
      rcases hall _ hmem with ⟨n, hn⟩ | ⟨n, hn⟩ <;> cases hn
  · intro o v1 v2 v3 e q1 sr1 sd1 c1 a1 q2 h1 h2 h3 h4 h5 h6 h7
    have hap1 : analyze_pipeline o v1.Vendor = .ok ⟨v1.Vendor, q1, sr1, sd1, c1⟩ := by
      unfold analyze_pipeline
      simp only [h1, h2, h3, h4]
    have hap2 : analyze_pipeline o v2.Vendor = .error e := by
      unfold analyze_pipeline
      simp only [h6, h7]
    have han : analyze_vendors o [v1, v2, v3] =
        (.error e, [.startedVendor v1.Vendor, .startedVendor v2.Vendor]) := by
      simp only [analyze_vendors, hap1, hap2, h5, Except.map]
    unfold full_pipeline
    rw [han]

/-- Witness for C3: the echoing stub whose search fails on the query of
vendor `"Bravo"`, over the three-vendor ledger Alpha, Bravo, Charlie. -/
theorem C3_failure_aborts_run_witness :
    full_pipeline stubFailSearch
        [InRow.mk "Alpha" "1", InRow.mk "Bravo" "2", InRow.mk "Charlie" "3"] =
      (.error (.externalError "search down"),
       [Event.startedVendor "Alpha", Event.startedVendor "Bravo"]) ∧
    (∀ rows, Event.wroteResults rows ∉
      [Event.startedVendor "Alpha", Event.startedVendor "Bravo"]) ∧
    (∀ c, Event.wroteOpportunities c ∉
      [Event.startedVendor "Alpha", Event.startedVendor "Bravo"]) :=
  ⟨C3_failure_aborts_run.2 stubFailSearch
      (InRow.mk "Alpha" "1") (InRow.mk "Bravo" "2") (InRow.mk "Charlie" "3")
      (.externalError "search down")
      (query_template "Alpha") "results" (summary_template "results")
      (classification_template (summary_template "results")) 1
      (query_template "Bravo")
      rfl (by decide) rfl rfl (by decide) rfl (by decide),
   (C3_failure_aborts_run.1 stubFailSearch
      [InRow.mk "Alpha" "1", InRow.mk "Bravo" "2", InRow.mk "Charlie" "3"]
      (.externalError "search down")
      [Event.startedVendor "Alpha", Event.startedVendor "Bravo"] (by decide)).1,
   (C3_failure_aborts_run.1 stubFailSearch
      [InRow.mk "Alpha" "1", InRow.mk "Bravo" "2", InRow.mk "Charlie" "3"]
      (.externalError "search down")
      [Event.startedVendor "Alpha", Event.startedVendor "Bravo"] (by decide)).2⟩

/-- Counterexample to C4 as stated: the pipeline performs no validation
on the classification reply, so a model response `"Blorp"` — not a member
of the 12-label department set — is stored in the record and written to
the results file unchanged. -/
theorem C4_counterexample :
    (full_pipeline stubOutOfSet [InRow.mk "AWS" "1"]).1 =
      .ok (PipeDict.mk [InRow.mk "AWS" "1"]
        (some [VendorRecord.mk "AWS" 1 "Blorp" "Blorp" (some "blorp")])
        (some [VendorRecord.mk "AWS" 1 "Blorp" "Blorp" (some "blorp")])
        (some "Blorp")) ∧
    Event.wroteResults [csvHeader,
        [Field.str "AWS", Field.num 1, Field.str "Blorp", Field.str "Blorp", Field.str "blorp"]]
      ∈ (full_pipeline stubOutOfSet [InRow.mk "AWS" "1"]).2 ∧
    "Blorp" ∉ departments := by decide

/-- Claim C4 (amended): provided every classification reply is a member
of the fixed 12-label department set, every category stored in a
`VendorRecord` and every category cell written to the output file is a
member of that set.  (Unconditioned on the replies the claim fails,
`C4_counterexample`: the code never validates the label.) -/
theorem C4_category_in_department_set (o : Oracles)
    (hcls : ∀ sd c, o.llm (classification_template sd) = .ok c → c ∈ departments) :
    ∀ (input : List InRow) (d : PipeDict) (evs : List Event),
      full_pipeline o input = (.ok d, evs) →
      ∃ actioned, d.processed_data = some actioned ∧
        (∀ v ∈ actioned, v.Category ∈ departments) ∧
        ∀ rows, Event.wroteResults rows ∈ evs →
          ∀ row ∈ rows.tail, ∃ v, v ∈ actioned ∧ row = csv_row v ∧
            v.Category ∈ departments := by
  intro input d evs h
  obtain ⟨processed, actioned, opp, h1, h2, h3, hd, hevs⟩ :=
    full_pipeline_ok_spec o input d evs h
  subst hd; subst hevs
  obtain ⟨hlenA, -, hidxA⟩ := analyze_vendors_ok_spec o input processed _ h1
  obtain ⟨hlenR, -, hidxR⟩ :=
    recommend_actions_loop_spec o (vendor_summary processed) processed actioned _ h2
  have hcatP : ∀ v ∈ processed, v.Category ∈ departments := by
    intro v hv
    obtain ⟨i, hi⟩ := List.mem_iff_getElem?.mp hv
    have hilt : i < processed.length := by
      by_contra hc
      rw [List.getElem?_eq_none_iff.mpr (Nat.le_of_not_lt hc)] at hi
      cases hi
    have hin : input[i]? = some (input.get ⟨i, by omega⟩) :=
      List.getElem?_eq_getElem (by omega)
    obtain ⟨r, amt, hap, hpa, hres⟩ := hidxA i _ hin
    rw [hres] at hi
    cases hi
    exact hcls r.service_description r.category
      (analyze_pipeline_ok o _ r hap).2.2.2.2
  have hcatA : ∀ v ∈ actioned, v.Category ∈ departments := by
    intro v hv
    obtain ⟨i, hi⟩ := List.mem_iff_getElem?.mp hv
    have hilt : i < actioned.length := by
      by_contra hc
      rw [List.getElem?_eq_none_iff.mpr (Nat.le_of_not_lt hc)] at hi
      cases hi
    have hin : processed[i]? = some (processed.get ⟨i, by omega⟩) :=
      List.getElem?_eq_getElem (by omega)
    obtain ⟨raw, -, hres⟩ := hidxR i _ hin
    rw [hres] at hi
    cases hi
    exact hcatP (processed.get ⟨i, by omega⟩) (List.mem_iff_getElem?.mpr ⟨i, hin⟩)
  refine ⟨actioned, rfl, hcatA, ?_⟩
  intro rows hmem row hrow
  have hrows : rows = save_to_csv actioned := by
    simp only [List.append_assoc, List.mem_append, List.mem_map, List.mem_singleton] at hmem
    rcases hmem with ⟨v, -, hv⟩ | ⟨v, -, hv⟩ | hv | hv
    · cases hv
    · cases hv
    · cases hv
    · injection hv with h
  subst hrows
  simp only [save_to_csv, List.tail_cons] at hrow
  obtain ⟨v, hvmem, hveq⟩ := List.mem_map.mp hrow
  exact ⟨v, hvmem, hveq.symm, hcatA v hvmem⟩

/-- Witness for the amended C4: the deterministic stub classifies every
vendor as `"Engineering"`, a member of the department set. -/
theorem C4_category_in_department_set_witness :
    ∃ actioned,
      (PipeDict.mk [InRow.mk "AWS" "1"]
        (some [VendorRecord.mk "AWS" 1 "Engineering" "Engineering" (some "engineering")])
        (some [VendorRecord.mk "AWS" 1 "Engineering" "Engineering" (some "engineering")])
        (some "Engineering")).processed_data = some actioned ∧
      (∀ v ∈ actioned, v.Category ∈ departments) ∧
      ∀ rows, Event.wroteResults rows ∈
          [Event.startedVendor "AWS", Event.recommendingVendor "AWS",
           Event.wroteOpportunities "Engineering",
           Event.wroteResults (save_to_csv
             [VendorRecord.mk "AWS" 1 "Engineering" "Engineering" (some "engineering")])] →
        ∀ row ∈ rows.tail, ∃ v, v ∈ actioned ∧ row = csv_row v ∧
          v.Category ∈ departments :=
  C4_category_in_department_set stubOracle
    (fun sd c h => by injection h with h2; exact h2 ▸ (by decide))
    [InRow.mk "AWS" "1"] _ _ (by decide)

/-- Claim C5: for every vendor, the stored action is exactly the model
reply trimmed of surrounding whitespace and lowercased
(`x.content.strip().lower()`), whatever the reply is — the code applies no
structural validation, so a malformed reply is stored verbatim after that
transformation. -/
theorem C5_action_is_trimmed_lowercased (o : Oracles) (pd out : List VendorRecord)
    (evs : List Event) (h : recommend_actions o pd = (.ok out, evs)) :
    out.length = pd.length ∧
    ∀ (i : ℕ) (v : VendorRecord), pd[i]? = some v → ∃ raw,
      o.llm (recommendation_template (vendor_summary pd) v.Vendor (pyFloatStr v.Amount)
        v.Category v.Description) = .ok raw ∧
      out[i]? = some { v with Action := some (pyLower (pyStrip raw)) } := by
  obtain ⟨hlen, -, hidx⟩ :=
    recommend_actions_loop_spec o (vendor_summary pd) pd out evs h
  exact ⟨hlen, hidx⟩

/-- Witness for C5: a malformed reply `"  Not-An-Action X  "` is stored
as `"not-an-action x"` — trimmed and lowercased, nothing else. -/
theorem C5_action_is_trimmed_lowercased_witness :
    ∃ raw,
      stubMalformed.llm (recommendation_template
        (vendor_summary [VendorRecord.mk "AWS" 1200 "d" "SaaS" none])
        "AWS" (pyFloatStr 1200) "SaaS" "d") = .ok raw ∧
      ([VendorRecord.mk "AWS" 1200 "d" "SaaS" (some "not-an-action x")] :
          List VendorRecord)[0]? =
        some (VendorRecord.mk "AWS" 1200 "d" "SaaS" (some (pyLower (pyStrip raw)))) :=
  (C5_action_is_trimmed_lowercased stubMalformed
      [VendorRecord.mk "AWS" 1200 "d" "SaaS" none]
      [VendorRecord.mk "AWS" 1200 "d" "SaaS" (some "not-an-action x")]
      [Event.recommendingVendor "AWS"] (by decide)).2
    0 (VendorRecord.mk "AWS" 1200 "d" "SaaS" none) rfl

/-- Claim C6: the persistence stage writes a header row with exactly the
columns Vendor, Amount, Description, Category, Action, followed by one
5-field data row per vendor record, in record order. -/
theorem C6_csv_columns (data : List VendorRecord) :
    (save_to_csv data).head? =
      some [Field.str "Vendor", Field.str "Amount", Field.str "Description",
            Field.str "Category", Field.str "Action"] ∧
    (save_to_csv data).length = data.length + 1 ∧
    (∀ (i : ℕ) (v : VendorRecord), data[i]? = some v →
      (save_to_csv data)[i + 1]? =
        some [Field.str v.Vendor, Field.num v.Amount, Field.str v.Description,
              Field.str v.Category, actionField v.Action]) ∧
    ∀ (row : List Field), row ∈ save_to_csv data → row.length = 5 := by
  refine ⟨rfl, by simp [save_to_csv], ?_, ?_⟩
  · intro i v hv
    simp [save_to_csv, List.getElem?_cons_succ, hv, csv_row]
  · intro row hrow
    simp only [save_to_csv, List.mem_cons] at hrow
    rcases hrow with h | h
    · subst h; rfl
    · obtain ⟨v, -, hv⟩ := List.mem_map.mp h
      rw [← hv]
      rfl

/-- Witness for C6, instantiated at a one-record list. -/
theorem C6_csv_columns_witness :
    (save_to_csv [VendorRecord.mk "AWS" 1 "d" "SaaS" (some "optimize")]).head? =
      some [Field.str "Vendor", Field.str "Amount", Field.str "Description",
            Field.str "Category", Field.str "Action"] ∧
    (save_to_csv [VendorRecord.mk "AWS" 1 "d" "SaaS" (some "optimize")]).length = 2 ∧
    (save_to_csv [VendorRecord.mk "AWS" 1 "d" "SaaS" (some "optimize")])[1]? =
      some [Field.str "AWS", Field.num 1, Field.str "d", Field.str "SaaS",
            actionField (some "optimize")] ∧
    csvHeader.length = 5 :=
  ⟨(C6_csv_columns [VendorRecord.mk "AWS" 1 "d" "SaaS" (some "optimize")]).1,
   (C6_csv_columns [VendorRecord.mk "AWS" 1 "d" "SaaS" (some "optimize")]).2.1,
   (C6_csv_columns [VendorRecord.mk "AWS" 1 "d" "SaaS" (some "optimize")]).2.2.1
     0 (VendorRecord.mk "AWS" 1 "d" "SaaS" (some "optimize")) rfl,
   (C6_csv_columns [VendorRecord.mk "AWS" 1 "d" "SaaS" (some "optimize")]).2.2.2
     csvHeader (by decide)⟩

/-- Counterexample to C7 as stated: the opportunity stage persists the
raw model reply without any structural validation, so a four-row reply is
written as-is and the persisted output has 4 > 3 data rows. -/
theorem C7_counterexample :
    identify_top_opportunities stubFourRows [] =
      (.ok fourRowResponse, [.wroteOpportunities fourRowResponse]) ∧
    (spec_data_rows fourRowResponse).length = 4 ∧
    ¬ (spec_data_rows fourRowResponse).length ≤ 3 := by decide

/-- Claim C7 (amended): the persisted opportunity output is the model
reply verbatim, so whenever the reply has at most 3 data rows of exactly
3 fields each, so does every persisted opportunities-file content.
(Unconditioned on the reply the claim fails, `C7_counterexample`: the
code neither parses nor validates the text.) -/
theorem C7_opportunities_shape (o : Oracles) (pda : List VendorRecord)
    (opp : String) (evs : List Event)
    (h : identify_top_opportunities o pda = (.ok opp, evs))
    (hrows : (spec_data_rows opp).length ≤ 3)
    (hfields : ∀ r ∈ spec_data_rows opp, (spec_row_fields r).length = 3) :
    evs = [Event.wroteOpportunities opp] ∧
    ∀ c, Event.wroteOpportunities c ∈ evs →
      (spec_data_rows c).length ≤ 3 ∧
      ∀ r ∈ spec_data_rows c, (spec_row_fields r).length = 3 := by
  obtain ⟨-, hevs⟩ := identify_top_opportunities_ok o pda opp evs h
  subst hevs
  refine ⟨rfl, ?_⟩
  intro c hc
  simp only [List.mem_singleton] at hc
  injection hc with hc2
  subst hc2
  exact ⟨hrows, hfields⟩

/-- Witness for the amended C7: a two-row reply of three fields per row
is persisted with exactly that shape. -/
theorem C7_opportunities_shape_witness :
    (spec_data_rows twoRowResponse).length ≤ 3 ∧
    ∀ r ∈ spec_data_rows twoRowResponse, (spec_row_fields r).length = 3 :=
  (C7_opportunities_shape stubTwoRows [] twoRowResponse
      [Event.wroteOpportunities twoRowResponse]
      (by decide) (by decide) (by decide)).2
    twoRowResponse (by decide)

/-- Claim C8: the recommendation stage only adds the `Action` field — it
neither adds nor deletes records, and leaves every other field of every
record unchanged. -/
theorem C8_recommendation_frame (o : Oracles) (pd out : List VendorRecord)
    (evs : List Event) (h : recommend_actions o pd = (.ok out, evs)) :
    out.length = pd.length ∧
    ∀ (i : ℕ) (v : VendorRecord), pd[i]? = some v → ∃ w,
      out[i]? = some w ∧ w.Vendor = v.Vendor ∧ w.Amount = v.Amount ∧
      w.Description = v.Description ∧ w.Category = v.Category := by
  obtain ⟨hlen, -, hidx⟩ :=
    recommend_actions_loop_spec o (vendor_summary pd) pd out evs h
  refine ⟨hlen, ?_⟩
  intro i v hv
  obtain ⟨raw, -, hout⟩ := hidx i v hv
  exact ⟨_, hout, rfl, rfl, rfl, rfl⟩

/-- Witness for C8 at a one-record list. -/
theorem C8_recommendation_frame_witness :
    ∃ w,
      ([VendorRecord.mk "AWS" 1200 "d" "SaaS" (some "engineering")] :
          List VendorRecord)[0]? = some w ∧
      w.Vendor = "AWS" ∧ w.Amount = 1200 ∧ w.Description = "d" ∧ w.Category = "SaaS" :=
  (C8_recommendation_frame stubOracle
      [VendorRecord.mk "AWS" 1200 "d" "SaaS" none]
      [VendorRecord.mk "AWS" 1200 "d" "SaaS" (some "engineering")]
      [Event.recommendingVendor "AWS"] (by decide)).2
    0 (VendorRecord.mk "AWS" 1200 "d" "SaaS" none) rfl

/-- Claim C9: the enrichment stage has no hidden per-vendor state — with
any fixed (deterministic) oracles, enriching the same vendor twice in one
run yields two identical records (same description and category). -/
theorem C9_enrichment_idempotent (o : Oracles) (v : InRow)
    (res : List VendorRecord) (evs : List Event)
    (h : analyze_vendors o [v, v] = (.ok res, evs)) :
    ∃ r, res = [r, r] := by
  obtain ⟨hlen, -, hidx⟩ := analyze_vendors_ok_spec o [v, v] res evs h
  obtain ⟨x, y, hxy⟩ := List.length_eq_two.mp (by simpa using hlen)
  subst hxy
  obtain ⟨r0, a0, hap0, hpa0, h0⟩ := hidx 0 v rfl
  obtain ⟨r1, a1, hap1, hpa1, h1⟩ := hidx 1 v rfl
  simp only [List.getElem?_cons_zero, List.getElem?_cons_succ,
    Option.some.injEq] at h0 h1
  have hr : r0 = r1 := by rw [hap0] at hap1; exact Except.ok.inj hap1
  have ha : a0 = a1 := by rw [hpa0] at hpa1; exact Option.some.inj hpa1
  subst hr; subst ha
  exact ⟨_, by rw [h0, h1]⟩

/-- Witness for C9: the deterministic stub enriches `"AWS"` twice to the
same record. -/
theorem C9_enrichment_idempotent_witness :
    ∃ r, ([VendorRecord.mk "AWS" 1 "Engineering" "Engineering" none,
           VendorRecord.mk "AWS" 1 "Engineering" "Engineering" none] :
          List VendorRecord) = [r, r] :=
  C9_enrichment_idempotent stubOracle (InRow.mk "AWS" "1")
    [VendorRecord.mk "AWS" 1 "Engineering" "Engineering" none,
     VendorRecord.mk "AWS" 1 "Engineering" "Engineering" none]
    [Event.startedVendor "AWS", Event.startedVendor "AWS"] (by decide)

/-- Claim C10 (implicit): after the recommendation stage the pipeline
keys `processed_data` and `processed_data_with_actions` are bound to the
same record sequence (the stage mutates and returns its input), so the
final save — which reads `processed_data` — writes rows whose `Action`
column is populated; and the string returned by the opportunity stage is
exactly the content written to the opportunities file. -/
theorem C10_alias_and_persisted_outputs (o : Oracles) (input : List InRow)
    (d : PipeDict) (evs : List Event) (h : full_pipeline o input = (.ok d, evs)) :
    d.processed_data = d.processed_data_with_actions ∧
    ∃ actioned opp,
      d.processed_data = some actioned ∧
      d.top_opportunities = some opp ∧
      Event.wroteResults (save_to_csv actioned) ∈ evs ∧
      Event.wroteOpportunities opp ∈ evs ∧
      ∀ v ∈ actioned, ∃ a, v.Action = some a := by
  obtain ⟨processed, actioned, opp, h1, h2, h3, hd, hevs⟩ :=
    full_pipeline_ok_spec o input d evs h
  subst hd; subst hevs
  obtain ⟨hlenR, -, hidxR⟩ :=
    recommend_actions_loop_spec o (vendor_summary processed) processed actioned _ h2
  refine ⟨rfl, actioned, opp, rfl, rfl, by simp, by simp, ?_⟩
  intro v hv
  obtain ⟨i, hi⟩ := List.mem_iff_getElem?.mp hv
  have hilt : i < actioned.length := by
    by_contra hc
    rw [List.getElem?_eq_none_iff.mpr (Nat.le_of_not_lt hc)] at hi
    cases hi
  have hin : processed[i]? = some (processed.get ⟨i, by omega⟩) :=
    List.getElem?_eq_getElem (by omega)
  obtain ⟨raw, -, hres⟩ := hidxR i _ hin
  rw [hres] at hi
  cases hi
  exact ⟨pyLower (pyStrip raw), rfl⟩

/-- Witness for C10 at the two-vendor ledger with the deterministic
stub. -/
theorem C10_alias_and_persisted_outputs_witness :
    (PipeDict.mk [InRow.mk "AWS" "$1,200.00", InRow.mk "Zoom" "500"]
      (some [VendorRecord.mk "AWS" 1200 "Engineering" "Engineering" (some "engineering"),
             VendorRecord.mk "Zoom" 500 "Engineering" "Engineering" (some "engineering")])
      (some [VendorRecord.mk "AWS" 1200 "Engineering" "Engineering" (some "engineering"),
             VendorRecord.mk "Zoom" 500 "Engineering" "Engineering" (some "engineering")])
      (some "Engineering")).processed_data =
    (PipeDict.mk [InRow.mk "AWS" "$1,200.00", InRow.mk "Zoom" "500"]
      (some [VendorRecord.mk "AWS" 1200 "Engineering" "Engineering" (some "engineering"),
             VendorRecord.mk "Zoom" 500 "Engineering" "Engineering" (some "engineering")])
      (some [VendorRecord.mk "AWS" 1200 "Engineering" "Engineering" (some "engineering"),
             VendorRecord.mk "Zoom" 500 "Engineering" "Engineering" (some "engineering")])
      (some "Engineering")).processed_data_with_actions ∧
    ∃ actioned opp,
      (PipeDict.mk [InRow.mk "AWS" "$1,200.00", InRow.mk "Zoom" "500"]
        (some [VendorRecord.mk "AWS" 1200 "Engineering" "Engineering" (some "engineering"),
               VendorRecord.mk "Zoom" 500 "Engineering" "Engineering" (some "engineering")])
        (some [VendorRecord.mk "AWS" 1200 "Engineering" "Engineering" (some "engineering"),
               VendorRecord.mk "Zoom" 500 "Engineering" "Engineering" (some "engineering")])
        (some "Engineering")).processed_data = some actioned ∧
      (PipeDict.mk [InRow.mk "AWS" "$1,200.00", InRow.mk "Zoom" "500"]
        (some [VendorRecord.mk "AWS" 1200 "Engineering" "Engineering" (some "engineering"),
               VendorRecord.mk "Zoom" 500 "Engineering" "Engineering" (some "engineering")])
        (some [VendorRecord.mk "AWS" 1200 "Engineering" "Engineering" (some "engineering"),
               VendorRecord.mk "Zoom" 500 "Engineering" "Engineering" (some "engineering")])
        (some "Engineering")).top_opportunities = some opp ∧
      Event.wroteResults (save_to_csv actioned) ∈
        [Event.startedVendor "AWS", Event.startedVendor "Zoom",
         Event.recommendingVendor "AWS", Event.recommendingVendor "Zoom",
         Event.wroteOpportunities "Engineering",
         Event.wroteResults (save_to_csv
           [VendorRecord.mk "AWS" 1200 "Engineering" "Engineering" (some "engineering"),
            VendorRecord.mk "Zoom" 500 "Engineering" "Engineering" (some "engineering")])] ∧
      Event.wroteOpportunities opp ∈
        [Event.startedVendor "AWS", Event.startedVendor "Zoom",
         Event.recommendingVendor "AWS", Event.recommendingVendor "Zoom",
         Event.wroteOpportunities "Engineering",
         Event.wroteResults (save_to_csv
           [VendorRecord.mk "AWS" 1200 "Engineering" "Engineering" (some "engineering"),
            VendorRecord.mk "Zoom" 500 "Engineering" "Engineering" (some "engineering")])] ∧
      ∀ v ∈ actioned, ∃ a, v.Action = some a :=
  C10_alias_and_persisted_outputs stubOracle
    [InRow.mk "AWS" "$1,200.00", InRow.mk "Zoom" "500"] _ _ (by decide)

end VendorAI
